import Mathlib

/-!
# WorkloadGenerator (android_cpu_tools)

Shallow embedding of `src/workload_generator/workload_generator.h`:

* `RealWorkload`  : the compute kernel (two nested counted loops and a flag);
* `Workload`      : the body of one worker thread;
* `RunWorkload`   : the dispatcher (sync, create loop, join loop).

Machine integers: `int` is 32 bits wide; `size_t` is `sizeBits` wide
(32 on an ILP32 build, 64 on an LP64 build).  Values are `Int`/`Nat`, the
conversions between the two C types are explicit.
-/

namespace WorkloadGenerator

/-! ## Counted loops -/

/-- Run `body` on `n` consecutive values of the loop variable, starting at `i`. -/
def iterate {σ : Type} (body : Int → σ → σ) : Nat → Int → σ → σ
  | 0, _, s => s
  | n + 1, i, s => iterate body n (i + 1) (body i s)

/-- The C loop `for (x = lo; x < hi; ++x) body(x)`, for a body that writes neither
`x` nor `hi`.  Its trip count is `hi - lo` (zero when `hi ≤ lo`); that this is the
loop of the source is `forLoop_unfold` below. -/
def forLoop {σ : Type} (lo hi : Int) (body : Int → σ → σ) (s : σ) : σ :=
  iterate body (hi - lo).toNat lo s

/-! ## The compute kernel -/

/-- State of `RealWorkload`.  `k` is the flag of the source; `outerIters` and
`tested` are ghost instrumentation: the number of outer-loop bodies entered and
the pairs `(j, i)` on which `j % i` was evaluated, in execution order. -/
structure KernelState where
  k : Bool
  outerIters : Nat
  tested : List (Int × Int)
deriving DecidableEq, Repr

/-- Body of the inner loop: `if ((j % i) == 0) k = true;`.  The `%` of C truncates. -/
def innerBody (j i : Int) (s : KernelState) : KernelState :=
  { s with
    k := if Int.tmod j i = 0 then true else s.k
    tested := s.tested ++ [(j, i)] }

/-- Body of the outer loop: `for (i = 1; i < j; ++i) ...`. -/
def outerBody (j : Int) (s : KernelState) : KernelState :=
  forLoop 1 j (innerBody j) { s with outerIters := s.outerIters + 1 }

/-- What `printf("%d\n", k)` writes for a `bool` argument. -/
def printfFlag (k : Bool) : String :=
  if k then "1\n" else "0\n"

/-- Result of one run of the kernel: the state when the loops are left and the
text written to standard output. -/
structure KernelRun where
  final : KernelState
  stdout : String
deriving DecidableEq, Repr

/-- Function `RealWorkload(int load_length)`: the nested loops from `bool k = false`,
then `printf("%d\n", k)`.  The loop variables stay within `[0, load_length]`, so
no 32-bit overflow can occur and they are plain integers. -/
def RealWorkload (load_length : Int) : KernelRun :=
  let s := forLoop 0 load_length outerBody { k := false, outerIters := 0, tested := [] }
  { final := s, stdout := printfFlag s.k }

/-- Number of inner-loop divisibility tests executed for `load_length`. -/
def testCount (load_length : Int) : Nat :=
  (RealWorkload load_length).final.tested.length

/-- Kernel state after the first `N` outer iterations. -/
def afterOuter (N : Nat) : KernelState :=
  iterate outerBody N 0 { k := false, outerIters := 0, tested := [] }

/-! ## Integer conversions -/

/-- Conversion of a `size_t` value to `int` (32 bits), as in the assignment
`workload_params->eligible_core = eligible_cores[i]`: the value is reduced modulo
`2^32` into `[-2^31, 2^31)`. -/
def sizeToInt (c : Nat) : Int :=
  let r : Int := (c : Int) % 2 ^ 32
  if r < 2 ^ 31 then r else r - 2 ^ 32

/-- Conversion of an `int` to a `size_t` of `sizeBits` bits, as in
`std::vector<size_t>(1, workload_params->eligible_core)`: reduction modulo
`2^sizeBits`. -/
def intToSize (sizeBits : Nat) (z : Int) : Nat :=
  (z % 2 ^ sizeBits).toNat

/-! ## The worker -/

/-- The struct `WorkloadParams` of the source, with its two `int` fields. -/
structure WorkloadParams where
  eligible_core : Int
  load_length : Int
deriving DecidableEq, Repr

/-- Observable steps of one worker thread, in program order. -/
inductive WorkerEvent where
  | setAffinity (cores : List Nat)
  | setpriority (which who prio : Int)
  | plog (msg : String)
  | vlog (load_length eligible_core : Int)
  | realWorkload (load_length : Int) (stdout : String)
  | delete (params : WorkloadParams)
deriving DecidableEq, Repr

/-- Outcomes of the two setup calls of a worker, chosen by the platform.
`affinityOk` is the result of `SetCurrentThreadAffinity`, which the source
discards; `setpriorityRet` is the return value of `setpriority`. -/
structure WorkerEnv where
  affinityOk : Bool
  setpriorityRet : Int

/-- Function `SetCurrentThreadMaxPriority()` with `OS_ANDROID` defined:
`setpriority(PRIO_PROCESS, 0, -20)`, with `PRIO_PROCESS = 0`, logging when the call
returns a negative value. -/
def SetCurrentThreadMaxPriority (env : WorkerEnv) : List WorkerEvent :=
  let kMaxPriority : Int := -20
  [WorkerEvent.setpriority 0 0 kMaxPriority] ++
    (if env.setpriorityRet < 0 then [WorkerEvent.plog "setpriority failed"] else [])

/-- Function `Workload(void *arg)`: the thread body, run on the `WorkloadParams` it
is handed.  `VLOG(1)` is recorded as a `vlog` event whatever the verbosity. -/
def Workload (sizeBits : Nat) (env : WorkerEnv) (workload_params : WorkloadParams) :
    List WorkerEvent :=
  [WorkerEvent.setAffinity (List.replicate 1 (intToSize sizeBits workload_params.eligible_core))] ++
  SetCurrentThreadMaxPriority env ++
  [WorkerEvent.vlog workload_params.load_length workload_params.eligible_core] ++
  [WorkerEvent.realWorkload workload_params.load_length
      (RealWorkload workload_params.load_length).stdout] ++
  [WorkerEvent.delete workload_params]

/-- Diagnostic output of a worker (`PLOG`, `VLOG`), as opposed to its steps. -/
def WorkerEvent.isLog : WorkerEvent → Bool
  | .plog _ => true
  | .vlog _ _ => true
  | _ => false

/-- The affinity sets a worker applies, in order. -/
def appliedAffinity : List WorkerEvent → List (List Nat)
  | [] => []
  | .setAffinity cs :: es => cs :: appliedAffinity es
  | _ :: es => appliedAffinity es

/-! ## The dispatcher -/

/-- Observable steps of `RunWorkload`, in program order.  `pthread_create slot arg`
is the call `pthread_create(&workload_tids[slot], NULL, Workload, arg)`;
`pthread_join slot tid` is `pthread_join(workload_tids[slot], NULL)` with `tid` the
handle read from the slot. -/
inductive DispatchEvent where
  | sync
  | pthread_create (slot : Nat) (arg : WorkloadParams)
  | pthread_join (slot : Nat) (tid : Nat)
  | plog (msg : String)
deriving DecidableEq, Repr

/-- Outcome of one `pthread_create` call: its return value (`0` on success, an
error number otherwise), the handle it stores on success, and what a failing call
leaves in the slot it was given (`none`: the slot is untouched; POSIX leaves the
content of the slot undefined after a failure). -/
structure CreateResult where
  ret : Int
  tid : Nat
  failStore : Option Nat
deriving DecidableEq, Repr

/-- What the call writes through its first argument, if anything. -/
def CreateResult.stored (r : CreateResult) : Option Nat :=
  if r.ret = 0 then some r.tid else r.failStore

/-- Outcomes of the thread calls, chosen by the platform: of the `i`-th
`pthread_create` and of the `i`-th `pthread_join`. -/
structure Env where
  create : Nat → CreateResult
  join : Nat → Int

/-- The variables of the dispatcher: the vector `workload_tids` and the steps so far. -/
structure DispatchState where
  workload_tids : List Nat
  trace : List DispatchEvent
deriving DecidableEq, Repr

/-- The C loop `for (size_t i = 0; i < n; ++i) body(i)`. -/
def forIndex {σ : Type} (n : Nat) (body : Nat → σ → σ) (s : σ) : σ :=
  (List.range n).foldl (fun acc i => body i acc) s

/-- Body of the creation loop.  A successful `pthread_create` stores the new
handle in `workload_tids[i]`; a failed one leaves in the slot what the platform
chose, the old value or something else. -/
def createBody (env : Env) (eligible_cores : List Nat) (load_length : Int)
    (i : Nat) (s : DispatchState) : DispatchState :=
  let workload_params : WorkloadParams :=
    { eligible_core := sizeToInt (eligible_cores.getD i 0), load_length := load_length }
  let r := env.create i
  { workload_tids :=
      match r.stored with
      | some v => s.workload_tids.set i v
      | none => s.workload_tids
    trace := s.trace ++ [DispatchEvent.pthread_create i workload_params] ++
      (if r.ret < 0 then [DispatchEvent.plog "pthread_create failed"] else []) }

/-- Body of the join loop. -/
def joinBody (env : Env) (i : Nat) (s : DispatchState) : DispatchState :=
  { s with
    trace := s.trace ++ [DispatchEvent.pthread_join i (s.workload_tids.getD i 0)] ++
      (if env.join i < 0 then [DispatchEvent.plog "pthread_join failed"] else []) }

/-- Function `RunWorkload(eligible_cores, load_length)`: `sync()`, the value-initialised
vector of handles, the creation loop, the join loop; the result is the sequence of
steps performed when the function returns. -/
def RunWorkload (env : Env) (eligible_cores : List Nat) (load_length : Int) :
    List DispatchEvent :=
  let s0 : DispatchState :=
    { workload_tids := List.replicate eligible_cores.length 0, trace := [DispatchEvent.sync] }
  let s1 := forIndex s0.workload_tids.length (createBody env eligible_cores load_length) s0
  let s2 := forIndex s1.workload_tids.length (joinBody env) s1
  s2.trace

/-- Diagnostic output of the dispatcher, as opposed to its steps. -/
def DispatchEvent.isLog : DispatchEvent → Bool
  | .plog _ => true
  | _ => false

/-- The steps of a dispatcher run without its diagnostic output. -/
def actions (t : List DispatchEvent) : List DispatchEvent :=
  t.filter (fun e => !e.isLog)

/-- The `WorkloadParams` handed to `pthread_create`, in call order. -/
def createdTasks : List DispatchEvent → List WorkloadParams
  | [] => []
  | .pthread_create _ p :: es => p :: createdTasks es
  | _ :: es => createdTasks es

/-- The slots on which `pthread_join` was called, in call order. -/
def joinedSlots : List DispatchEvent → List Nat
  | [] => []
  | .pthread_join slot _ :: es => slot :: joinedSlots es
  | _ :: es => joinedSlots es

/-- Steps of the `i`-th pass through the creation loop. -/
def createEvents (env : Env) (eligible_cores : List Nat) (load_length : Int) (i : Nat) :
    List DispatchEvent :=
  [DispatchEvent.pthread_create i
      { eligible_core := sizeToInt (eligible_cores.getD i 0), load_length := load_length }] ++
    (if (env.create i).ret < 0 then [DispatchEvent.plog "pthread_create failed"] else [])

/-- Handle held by `workload_tids[i]` when the creation loop is over: what the
`i`-th `pthread_create` stored, the initial `0` if it stored nothing. -/
def slotAfterCreate (env : Env) (i : Nat) : Nat :=
  ((env.create i).stored).getD 0

/-- Steps of the `i`-th pass through the join loop. -/
def joinEvents (env : Env) (i : Nat) : List DispatchEvent :=
  [DispatchEvent.pthread_join i (slotAfterCreate env i)] ++
    (if env.join i < 0 then [DispatchEvent.plog "pthread_join failed"] else [])

/-- Thread calls that all succeed; the `i`-th created thread has handle `100 + i`. -/
def allSucceed : Env :=
  { create := fun i => { ret := 0, tid := 100 + i, failStore := none }, join := fun _ => 0 }

/-- Thread calls in which every `pthread_create` fails with `EAGAIN` (11), leaving
its slot untouched, and every `pthread_join` returns `ESRCH` (3). -/
def noThreads : Env :=
  { create := fun _ => { ret := 11, tid := 0, failStore := none }, join := fun _ => 3 }

/-- Setup calls of a worker that both succeed. -/
def setupOk : WorkerEnv :=
  { affinityOk := true, setpriorityRet := 0 }

/-- Number of failed calls among the first `k` calls of `pthread_create`. -/
def failedCreations (env : Env) (k : Nat) : Nat :=
  ((List.range k).filter (fun i => decide ((env.create i).ret ≠ 0))).length

/-! ## Loop lemmas -/

theorem forLoop_unfold {σ : Type} (lo hi : Int) (body : Int → σ → σ) (s : σ) :
    forLoop lo hi body s =
      if lo < hi then forLoop (lo + 1) hi body (body lo s) else s := by
  unfold forLoop
  split
  · next h =>
    have e : (hi - lo).toNat = (hi - (lo + 1)).toNat + 1 := by omega
    rw [e, iterate]
  · next h =>
    have e : (hi - lo).toNat = 0 := by omega
    rw [e, iterate]

theorem iterate_succ_last {σ : Type} (body : Int → σ → σ) (n : Nat) (i : Int) (s : σ) :
    iterate body (n + 1) i s = body (i + n) (iterate body n i s) := by
  induction n generalizing i s with
  | zero => simp [iterate]
  | succ m ih =>
    rw [iterate, ih (i + 1) (body i s)]
    have e : i + 1 + (m : Int) = i + ((m + 1 : Nat) : Int) := by push_cast; ring
    rw [e]
    rfl

theorem inner_k (j : Int) (n : Nat) (i : Int) (s : KernelState) :
    (iterate (innerBody j) n i s).k = true ↔
      s.k = true ∨ ∃ t : Nat, t < n ∧ Int.tmod j (i + t) = 0 := by
  induction n generalizing i s with
  | zero => simp [iterate]
  | succ m ih =>
    rw [iterate, ih]
    constructor
    · rintro (h | ⟨t, ht, h⟩)
      · by_cases c : Int.tmod j i = 0
        · exact Or.inr ⟨0, by omega, by simpa using c⟩
        · left; simpa [innerBody, c] using h
      · refine Or.inr ⟨t + 1, by omega, ?_⟩
        have e : i + ((t + 1 : Nat) : Int) = i + 1 + t := by push_cast; ring
        rw [e]; exact h
    · rintro (h | ⟨t, ht, h⟩)
      · left; simp [innerBody, h]
      · cases t with
        | zero =>
          left
          have c : Int.tmod j i = 0 := by simpa using h
          simp [innerBody, c]
        | succ u =>
          refine Or.inr ⟨u, by omega, ?_⟩
          have e : i + 1 + (u : Int) = i + ((u + 1 : Nat) : Int) := by push_cast; ring
          rw [e]; exact h

theorem inner_tested (j : Int) (n : Nat) (i : Int) (s : KernelState) :
    (iterate (innerBody j) n i s).tested =
      s.tested ++ (List.range n).map (fun (t : Nat) => (j, i + (t : Int))) := by
  induction n generalizing i s with
  | zero => simp [iterate]
  | succ m ih =>
    rw [iterate_succ_last, List.range_succ]
    simp [innerBody, ih]

theorem inner_outerIters (j : Int) (n : Nat) (i : Int) (s : KernelState) :
    (iterate (innerBody j) n i s).outerIters = s.outerIters := by
  induction n generalizing i s with
  | zero => simp [iterate]
  | succ m ih => rw [iterate, ih]; rfl

theorem RealWorkload_final (n : Int) : (RealWorkload n).final = afterOuter n.toNat := by
  simp [RealWorkload, forLoop, afterOuter]

theorem RealWorkload_stdout (n : Int) :
    (RealWorkload n).stdout = printfFlag (RealWorkload n).final.k := rfl

theorem afterOuter_succ (N : Nat) :
    afterOuter (N + 1) =
      iterate (innerBody N) (N - 1) 1
        { afterOuter N with outerIters := (afterOuter N).outerIters + 1 } := by
  unfold afterOuter
  rw [iterate_succ_last]
  simp only [outerBody, forLoop, zero_add]
  congr 1
  omega

theorem afterOuter_outerIters (N : Nat) : (afterOuter N).outerIters = N := by
  induction N with
  | zero => rfl
  | succ M ih => rw [afterOuter_succ, inner_outerIters]; simp [ih]

theorem afterOuter_tested_succ (N : Nat) :
    (afterOuter (N + 1)).tested =
      (afterOuter N).tested ++ (List.range (N - 1)).map (fun (t : Nat) => ((N : Int), 1 + (t : Int))) := by
  rw [afterOuter_succ, inner_tested]

theorem afterOuter_length_succ (N : Nat) :
    (afterOuter (N + 1)).tested.length = (afterOuter N).tested.length + (N - 1) := by
  rw [afterOuter_tested_succ]; simp

theorem afterOuter_length (N : Nat) :
    2 * (afterOuter (N + 1)).tested.length = N * (N - 1) := by
  induction N with
  | zero => rfl
  | succ M ih =>
    rw [afterOuter_length_succ, Nat.mul_add, ih]
    cases M with
    | zero => rfl
    | succ L => simp only [Nat.add_sub_cancel]; ring

theorem afterOuter_length_mono {A B : Nat} (h : A ≤ B) :
    (afterOuter A).tested.length ≤ (afterOuter B).tested.length := by
  induction h with
  | refl => exact Nat.le_refl _
  | step _ ih => rw [afterOuter_length_succ]; omega

theorem afterOuter_mem (N : Nat) (j i : Int) :
    (j, i) ∈ (afterOuter N).tested ↔ (0 ≤ j ∧ j < N) ∧ (1 ≤ i ∧ i < j) := by
  induction N with
  | zero =>
    simp only [afterOuter, iterate, List.not_mem_nil, false_iff]
    intro h
    have := h.1.2
    simp at this
    omega
  | succ M ih =>
    rw [afterOuter_tested_succ, List.mem_append, ih]
    simp only [List.mem_map, List.mem_range, Prod.mk.injEq]
    constructor
    · rintro (h | ⟨t, ht, hj, hi⟩)
      · refine ⟨⟨h.1.1, ?_⟩, h.2⟩
        have := h.1.2
        push_cast; omega
      · subst hj; subst hi
        refine ⟨⟨by omega, by push_cast; omega⟩, by omega, by omega⟩
    · rintro ⟨⟨h0, hN⟩, h1, hij⟩
      by_cases c : j < M
      · exact Or.inl ⟨⟨h0, c⟩, h1, hij⟩
      · right
        have hj : (M : Int) = j := by push_cast at hN; omega
        refine ⟨(i - 1).toNat, by omega, hj, by omega⟩

theorem afterOuter_k (N : Nat) :
    (afterOuter N).k = true ↔ ∃ p ∈ (afterOuter N).tested, Int.tmod p.1 p.2 = 0 := by
  induction N with
  | zero => simp [afterOuter, iterate]
  | succ M ih =>
    rw [afterOuter_tested_succ]
    rw [afterOuter_succ, inner_k]
    simp only [ih, List.mem_append, List.mem_map, List.mem_range]
    constructor
    · rintro (⟨p, hp, h⟩ | ⟨t, ht, h⟩)
      · exact ⟨p, Or.inl hp, h⟩
      · exact ⟨((M : Int), 1 + (t : Int)), Or.inr ⟨t, ht, rfl⟩, h⟩
    · rintro ⟨p, hp | ⟨t, ht, rfl⟩, h⟩
      · exact Or.inl ⟨p, hp, h⟩
      · exact Or.inr ⟨t, ht, h⟩

theorem afterOuter_head (N : Nat) :
    (afterOuter N).tested.head? = if 3 ≤ N then some ((2 : Int), (1 : Int)) else none := by
  induction N with
  | zero => rfl
  | succ M ih =>
    rw [afterOuter_tested_succ, List.head?_append, ih]
    by_cases c : 3 ≤ M
    · have c1 : 3 ≤ M + 1 := by omega
      simp [c, c1]
    · by_cases d : M = 2
      · subst d; decide
      · have e : M - 1 = 0 := by omega
        have c1 : ¬ 3 ≤ M + 1 := by omega
        simp [c, c1, e]

theorem kernel_mem (n j i : Int) :
    (j, i) ∈ (RealWorkload n).final.tested ↔ (0 ≤ j ∧ j < n) ∧ (1 ≤ i ∧ i < j) := by
  rw [RealWorkload_final, afterOuter_mem]
  constructor
  · rintro ⟨⟨h0, h1⟩, h2⟩
    exact ⟨⟨h0, by omega⟩, h2⟩
  · rintro ⟨⟨h0, h1⟩, h2⟩
    exact ⟨⟨h0, by omega⟩, h2⟩

theorem kernel_flag_three (n : Int) : (RealWorkload n).final.k = true ↔ 3 ≤ n := by
  rw [RealWorkload_final, afterOuter_k]
  constructor
  · rintro ⟨⟨j, i⟩, hp, -⟩
    rw [← RealWorkload_final, kernel_mem] at hp
    omega
  · intro h
    refine ⟨((2 : Int), (1 : Int)), ?_, by decide⟩
    rw [← RealWorkload_final, kernel_mem]
    omega

/-! ## The claims about the kernel -/

/-- C3: the flag `RealWorkload` hands to `printf` is true exactly when some `j` with
`0 ≤ j < n` has an `i` with `1 ≤ i < j` that divides it evenly (`j % i = 0`). -/
theorem C3_flag_iff_divisor_found (n : Int) :
    (RealWorkload n).final.k = true ↔
      ∃ j i : Int, (0 ≤ j ∧ j < n) ∧ (1 ≤ i ∧ i < j) ∧ j % i = 0 := by
  rw [RealWorkload_final, afterOuter_k]
  constructor
  · rintro ⟨⟨j, i⟩, hp, hz⟩
    have hm := hp
    rw [← RealWorkload_final, kernel_mem] at hm
    refine ⟨j, i, hm.1, hm.2, ?_⟩
    rw [← Int.tmod_eq_emod (by omega) (by omega)]
    exact hz
  · rintro ⟨j, i, hj, hi, hz⟩
    refine ⟨(j, i), ?_, ?_⟩
    · rw [← RealWorkload_final, kernel_mem]; exact ⟨hj, hi⟩
    · show Int.tmod j i = 0
      rw [Int.tmod_eq_emod (by omega) (by omega)]
      exact hz

/-- C4: the number of inner-loop divisibility tests is `0` for `n ≤ 0` and exactly
`(n - 1) (n - 2) / 2` for `n ≥ 1`, hence within `3 n / 2` of `n² / 2`. -/
theorem C4_testCount_quadratic (n : Int) :
    (n ≤ 0 → testCount n = 0) ∧
    (1 ≤ n → (testCount n : Int) = (n - 1) * (n - 2) / 2 ∧
      |(testCount n : ℚ) - (n : ℚ) ^ 2 / 2| ≤ 3 * (n : ℚ) / 2) := by
  unfold testCount
  rw [RealWorkload_final]
  constructor
  · intro h
    have e : n.toNat = 0 := by omega
    rw [e]; rfl
  · intro h
    obtain ⟨N, hN⟩ : ∃ N : Nat, n = (N : Int) + 1 := ⟨(n - 1).toNat, by omega⟩
    have e : n.toNat = N + 1 := by omega
    rw [e]
    have hlen := afterOuter_length N
    generalize (afterOuter (N + 1)).tested.length = L at hlen
    have hZ : 2 * (L : Int) = (n - 1) * (n - 2) := by
      subst hN
      cases N with
      | zero => simp at hlen; subst hlen; simp
      | succ M =>
        simp only [Nat.add_sub_cancel] at hlen
        have : ((2 * L : Nat) : Int) = (((M + 1) * M : Nat) : Int) := by rw [hlen]
        push_cast at this ⊢
        linarith
    constructor
    · rw [← hZ]; omega
    · have hQ : 2 * (L : ℚ) = ((n : ℚ) - 1) * ((n : ℚ) - 2) := by exact_mod_cast hZ
      have hn : (1 : ℚ) ≤ (n : ℚ) := by exact_mod_cast h
      rw [abs_le]
      constructor <;> nlinarith

/-- C8: for non-negative `a ≤ b` the kernel executes at most as many divisibility
tests for intensity `a` as for intensity `b`. -/
theorem C8_testCount_monotone (a b : Int) (_ha : 0 ≤ a) (hab : a ≤ b) :
    testCount a ≤ testCount b := by
  unfold testCount
  rw [RealWorkload_final, RealWorkload_final]
  exact afterOuter_length_mono (by omega)

theorem C8_testCount_monotone_witness :
    (0 : Int) ≤ 4 ∧ (4 : Int) ≤ 7 ∧ testCount 4 ≤ testCount 7 :=
  ⟨by decide, by decide, C8_testCount_monotone 4 7 (by decide) (by decide)⟩

/-- C9: for intensity `0` the kernel enters no outer-loop body, evaluates no `j % i`
(so performs no division), leaves the flag false and prints `0`. -/
theorem C9_zero_intensity :
    (RealWorkload 0).final.outerIters = 0 ∧
    (RealWorkload 0).final.tested = [] ∧
    testCount 0 = 0 ∧
    (RealWorkload 0).final.k = false ∧
    (RealWorkload 0).stdout = "0\n" := by
  decide

/-- C10: for every `load_length`, negative ones included, the kernel emits true
exactly when `load_length ≥ 3`; the first pair tested is `j = 2, i = 1`, on which
`2 % 1 = 0`; and no test has divisor `0`. -/
theorem C10_flag_threshold (n : Int) :
    ((RealWorkload n).final.k = true ↔ 3 ≤ n) ∧
    (RealWorkload n).stdout = (if 3 ≤ n then "1\n" else "0\n") ∧
    (RealWorkload n).final.tested.head? =
      (if 3 ≤ n then some ((2 : Int), (1 : Int)) else none) ∧
    Int.tmod 2 1 = 0 ∧
    (∀ p ∈ (RealWorkload n).final.tested, p.2 ≠ 0) := by
  refine ⟨kernel_flag_three n, ?_, ?_, by decide, ?_⟩
  · rw [RealWorkload_stdout]
    by_cases c : 3 ≤ n
    · rw [(kernel_flag_three n).2 c]; simp [printfFlag, c]
    · have hk : (RealWorkload n).final.k = false := by
        cases hkk : (RealWorkload n).final.k with
        | false => rfl
        | true => exact absurd ((kernel_flag_three n).1 hkk) c
      rw [hk]; simp [printfFlag, c]
  · rw [RealWorkload_final, afterOuter_head]
    by_cases c : 3 ≤ n
    · have c1 : 3 ≤ n.toNat := by omega
      simp [c, c1]
    · have c1 : ¬ 3 ≤ n.toNat := by omega
      simp [c, c1]
  · rintro ⟨j, i⟩ hp
    rw [kernel_mem] at hp
    show i ≠ 0
    omega

/-! ## The trace of the dispatcher -/

theorem forIndex_succ {σ : Type} (n : Nat) (body : Nat → σ → σ) (s : σ) :
    forIndex (n + 1) body s = body n (forIndex n body s) := by
  simp [forIndex, List.range_succ, List.foldl_append]

theorem create_length (env : Env) (cores : List Nat) (load : Int) (n : Nat)
    (s : DispatchState) :
    (forIndex n (createBody env cores load) s).workload_tids.length =
      s.workload_tids.length := by
  induction n with
  | zero => rfl
  | succ m ih =>
    rw [forIndex_succ]
    simp only [createBody]
    split
    · rw [List.length_set, ih]
    · exact ih

theorem create_trace (env : Env) (cores : List Nat) (load : Int) (n : Nat)
    (s : DispatchState) :
    (forIndex n (createBody env cores load) s).trace =
      s.trace ++ (List.range n).flatMap (createEvents env cores load) := by
  induction n with
  | zero => simp [forIndex]
  | succ m ih =>
    rw [forIndex_succ]
    simp only [createBody, ih, List.range_succ, List.flatMap_append, List.flatMap_singleton,
      createEvents, List.append_assoc]

theorem create_slot (env : Env) (cores : List Nat) (load : Int) (n : Nat)
    (s : DispatchState) (i : Nat) (hi : i < s.workload_tids.length) :
    (forIndex n (createBody env cores load) s).workload_tids.getD i 0 =
      if i < n then ((env.create i).stored).getD (s.workload_tids.getD i 0)
      else s.workload_tids.getD i 0 := by
  induction n with
  | zero => simp [forIndex]
  | succ m ih =>
    rw [forIndex_succ]
    have hlen := create_length env cores load m s
    simp only [createBody]
    by_cases him : m = i
    · subst him
      have c1 : m < m + 1 := by omega
      rw [if_pos c1]
      rw [if_neg (by omega : ¬ m < m)] at ih
      cases hst : (env.create m).stored with
      | none => simpa using ih
      | some v =>
        simp only [Option.getD_some]
        rw [List.getD_eq_getElem?_getD, List.getElem?_set]
        simp [hlen, hi]
    · have hkeep : ∀ v : Nat,
          ((forIndex m (createBody env cores load) s).workload_tids.set m v).getD i 0 =
            (forIndex m (createBody env cores load) s).workload_tids.getD i 0 := by
        intro v
        rw [List.getD_eq_getElem?_getD, List.getElem?_set, if_neg him,
          ← List.getD_eq_getElem?_getD]
      have hstep : (match (env.create m).stored with
          | some v => (forIndex m (createBody env cores load) s).workload_tids.set m v
          | none => (forIndex m (createBody env cores load) s).workload_tids).getD i 0 =
            (forIndex m (createBody env cores load) s).workload_tids.getD i 0 := by
        cases (env.create m).stored with
        | none => rfl
        | some v => exact hkeep v
      rw [hstep, ih]
      by_cases c : i < m
      · rw [if_pos c, if_pos (by omega : i < m + 1)]
      · rw [if_neg c, if_neg (by omega : ¬ i < m + 1)]

theorem join_tids (env : Env) (n : Nat) (s : DispatchState) :
    (forIndex n (joinBody env) s).workload_tids = s.workload_tids := by
  induction n with
  | zero => rfl
  | succ m ih => rw [forIndex_succ]; simpa [joinBody] using ih

theorem join_trace (env : Env) (n : Nat) (s : DispatchState) :
    (forIndex n (joinBody env) s).trace =
      s.trace ++ (List.range n).flatMap (fun i =>
        [DispatchEvent.pthread_join i (s.workload_tids.getD i 0)] ++
          (if env.join i < 0 then [DispatchEvent.plog "pthread_join failed"] else [])) := by
  induction n with
  | zero => simp [forIndex]
  | succ m ih =>
    rw [forIndex_succ]
    simp only [joinBody, ih, join_tids, List.range_succ, List.flatMap_append,
      List.flatMap_singleton, List.append_assoc]

theorem flatMap_range_congr {β : Type} (n : Nat) (f g : Nat → List β)
    (h : ∀ i, i < n → f i = g i) :
    (List.range n).flatMap f = (List.range n).flatMap g := by
  induction n with
  | zero => rfl
  | succ m ih =>
    rw [List.range_succ, List.flatMap_append, List.flatMap_append,
      ih (fun i hi => h i (by omega)), List.flatMap_singleton, List.flatMap_singleton,
      h m (by omega)]

/-- The whole trace of a dispatcher run, for any outcome of the thread calls. -/
theorem RunWorkload_trace (env : Env) (cores : List Nat) (load : Int) :
    RunWorkload env cores load =
      [DispatchEvent.sync] ++
        (List.range cores.length).flatMap (createEvents env cores load) ++
        (List.range cores.length).flatMap (joinEvents env) := by
  unfold RunWorkload
  simp only [join_trace, create_trace, create_length, List.length_replicate]
  congr 1
  apply flatMap_range_congr
  intro i hi
  rw [create_slot env cores load cores.length _ i (by simpa using hi)]
  simp [joinEvents, slotAfterCreate, hi, List.getD_eq_getElem?_getD, List.getElem?_replicate]

theorem actions_create (env : Env) (cores : List Nat) (load : Int) (i : Nat) :
    actions (createEvents env cores load i) =
      [DispatchEvent.pthread_create i
        { eligible_core := sizeToInt (cores.getD i 0), load_length := load }] := by
  unfold createEvents actions
  split <;> simp [DispatchEvent.isLog]

theorem actions_join (env : Env) (i : Nat) :
    actions (joinEvents env i) = [DispatchEvent.pthread_join i (slotAfterCreate env i)] := by
  unfold joinEvents actions
  split <;> simp [DispatchEvent.isLog]

theorem actions_flatMap (n : Nat) (f : Nat → List DispatchEvent) (g : Nat → DispatchEvent)
    (h : ∀ i, i < n → actions (f i) = [g i]) :
    actions ((List.range n).flatMap f) = (List.range n).map g := by
  unfold actions at *
  rw [List.filter_flatMap, List.map_eq_flatMap]
  exact flatMap_range_congr n _ _ h

/-- The steps of a dispatcher run, diagnostics left out, for any outcome of the
thread calls: `sync`, one `pthread_create` per slot, one `pthread_join` per slot. -/
theorem RunWorkload_actions (env : Env) (cores : List Nat) (load : Int) :
    actions (RunWorkload env cores load) =
      [DispatchEvent.sync] ++
        (List.range cores.length).map (fun i => DispatchEvent.pthread_create i
          { eligible_core := sizeToInt (cores.getD i 0), load_length := load }) ++
        (List.range cores.length).map (fun i =>
          DispatchEvent.pthread_join i (slotAfterCreate env i)) := by
  rw [RunWorkload_trace]
  have h1 := actions_flatMap cores.length (createEvents env cores load) _
    (fun i _ => actions_create env cores load i)
  have h2 := actions_flatMap cores.length (joinEvents env) _
    (fun i _ => actions_join env i)
  unfold actions at *
  rw [List.filter_append, List.filter_append, h1, h2]
  simp [DispatchEvent.isLog]

theorem map_range_congr {β : Type} (n : Nat) (f g : Nat → β)
    (h : ∀ i, i < n → f i = g i) :
    (List.range n).map f = (List.range n).map g := by
  apply List.map_congr_left
  intro i hi
  exact h i (List.mem_range.mp hi)

/-! ## The claims about the dispatcher and the worker -/

/-- C2: when every `pthread_create` succeeds, the steps of `RunWorkload` on `k` cores
are one `sync`, then `k` creations, then `k` joins, the `i`-th join being on the
handle the `i`-th creation produced; so no join precedes the last creation and the
run ends only after the `k`-th join is issued. -/
theorem C2_sync_creates_joins (env : Env) (cores : List Nat) (load : Int)
    (hok : ∀ i, i < cores.length → (env.create i).ret = 0) :
    actions (RunWorkload env cores load) =
      [DispatchEvent.sync] ++
        (List.range cores.length).map (fun i => DispatchEvent.pthread_create i
          { eligible_core := sizeToInt (cores.getD i 0), load_length := load }) ++
        (List.range cores.length).map (fun i =>
          DispatchEvent.pthread_join i (env.create i).tid) := by
  rw [RunWorkload_actions]
  congr 1
  apply map_range_congr
  intro i hi
  simp [slotAfterCreate, CreateResult.stored, hok i hi]

theorem C2_sync_creates_joins_witness :
    (∀ i, i < [0, 1, 5].length → (allSucceed.create i).ret = 0) ∧
    actions (RunWorkload allSucceed [0, 1, 5] 7) =
      [DispatchEvent.sync] ++
        (List.range [0, 1, 5].length).map (fun i => DispatchEvent.pthread_create i
          { eligible_core := sizeToInt ([0, 1, 5].getD i 0), load_length := 7 }) ++
        (List.range [0, 1, 5].length).map (fun i =>
          DispatchEvent.pthread_join i (allSucceed.create i).tid) :=
  ⟨fun _ _ => rfl, C2_sync_creates_joins allSucceed [0, 1, 5] 7 (fun _ _ => rfl)⟩

theorem actions_SetCurrentThreadMaxPriority (env : WorkerEnv) :
    (SetCurrentThreadMaxPriority env).filter (fun e => !e.isLog) =
      [WorkerEvent.setpriority 0 0 (-20)] := by
  unfold SetCurrentThreadMaxPriority
  split <;> simp [WorkerEvent.isLog]

/-- C7: whatever the outcome of the affinity call and of `setpriority`, the steps of a
worker on `(core_id, intensity)` are, in order: set affinity, set priority, run the
kernel with that same `intensity`, release the task. -/
theorem C7_worker_steps (sizeBits : Nat) (env : WorkerEnv) (p : WorkloadParams) :
    (Workload sizeBits env p).filter (fun e => !e.isLog) =
      [WorkerEvent.setAffinity [intToSize sizeBits p.eligible_core],
       WorkerEvent.setpriority 0 0 (-20),
       WorkerEvent.realWorkload p.load_length (RealWorkload p.load_length).stdout,
       WorkerEvent.delete p] := by
  unfold Workload
  simp only [List.filter_append, actions_SetCurrentThreadMaxPriority]
  simp [WorkerEvent.isLog]

/-! ## What the dispatcher hands out and what it joins -/

theorem createdTasks_append (a b : List DispatchEvent) :
    createdTasks (a ++ b) = createdTasks a ++ createdTasks b := by
  induction a with
  | nil => rfl
  | cons e es ih => cases e <;> simp [createdTasks, ih]

theorem joinedSlots_append (a b : List DispatchEvent) :
    joinedSlots (a ++ b) = joinedSlots a ++ joinedSlots b := by
  induction a with
  | nil => rfl
  | cons e es ih => cases e <;> simp [joinedSlots, ih]

theorem createdTasks_createEvents (env : Env) (cores : List Nat) (load : Int) (n : Nat) :
    createdTasks ((List.range n).flatMap (createEvents env cores load)) =
      (List.range n).map (fun i =>
        ({ eligible_core := sizeToInt (cores.getD i 0), load_length := load } :
          WorkloadParams)) := by
  induction n with
  | zero => rfl
  | succ m ih =>
    rw [List.range_succ, List.flatMap_append, createdTasks_append, ih, List.map_append]
    congr 1
    simp only [List.flatMap_singleton, createEvents]
    split <;> simp [createdTasks]

theorem createdTasks_joinEvents (env : Env) (n : Nat) :
    createdTasks ((List.range n).flatMap (joinEvents env)) = [] := by
  induction n with
  | zero => rfl
  | succ m ih =>
    rw [List.range_succ, List.flatMap_append, createdTasks_append, ih]
    simp only [List.flatMap_singleton, joinEvents]
    split <;> simp [createdTasks]

theorem joinedSlots_createEvents (env : Env) (cores : List Nat) (load : Int) (n : Nat) :
    joinedSlots ((List.range n).flatMap (createEvents env cores load)) = [] := by
  induction n with
  | zero => rfl
  | succ m ih =>
    rw [List.range_succ, List.flatMap_append, joinedSlots_append, ih]
    simp only [List.flatMap_singleton, createEvents]
    split <;> simp [joinedSlots]

theorem joinedSlots_joinEvents (env : Env) (n : Nat) :
    joinedSlots ((List.range n).flatMap (joinEvents env)) = List.range n := by
  induction n with
  | zero => rfl
  | succ m ih =>
    rw [List.range_succ, List.flatMap_append, joinedSlots_append, ih]
    congr 1
    simp only [List.flatMap_singleton, joinEvents]
    split <;> simp [joinedSlots]

theorem map_range_getD (cores : List Nat) (f : Nat → WorkloadParams) :
    (List.range cores.length).map (fun i => f (cores.getD i 0)) = cores.map f := by
  apply List.ext_getElem
  · simp
  · intro i h1 h2
    simp only [List.getElem_map, List.getElem_range]
    congr 1
    rw [List.getD_eq_getElem?_getD, List.getElem?_eq_getElem (by simpa using h2)]
    rfl

/-- For any outcome of the thread calls, one `WorkloadParams` is handed out per
entry of `cores`, in input order; it holds the core id converted to `int` and the
`load_length` of the call. -/
theorem createdTasks_RunWorkload (env : Env) (cores : List Nat) (load : Int) :
    createdTasks (RunWorkload env cores load) =
      cores.map (fun c =>
        ({ eligible_core := sizeToInt c, load_length := load } : WorkloadParams)) := by
  rw [RunWorkload_trace, createdTasks_append, createdTasks_append, createdTasks_createEvents,
    createdTasks_joinEvents]
  simp only [createdTasks, List.nil_append, List.append_nil]
  exact map_range_getD cores
    (fun c => ({ eligible_core := sizeToInt c, load_length := load } : WorkloadParams))

theorem createdTasks_length (env : Env) (cores : List Nat) (load : Int) :
    (createdTasks (RunWorkload env cores load)).length = cores.length := by
  rw [createdTasks_RunWorkload, List.length_map]

/-- The conversion to `int` keeps every core id below `2^31`. -/
theorem sizeToInt_of_lt (c : Nat) (h : c < 2 ^ 31) : sizeToInt c = (c : Int) := by
  unfold sizeToInt
  have h1 : ((c : Int) % 2 ^ 32) = (c : Int) := by
    apply Int.emod_eq_of_lt <;> omega
  simp only [h1]
  split
  · rfl
  · omega

/-- For any outcome of the thread calls, `pthread_join` is called on every slot, in
order, whether or not the `pthread_create` of that slot succeeded. -/
theorem joinedSlots_RunWorkload (env : Env) (cores : List Nat) (load : Int) :
    joinedSlots (RunWorkload env cores load) = List.range cores.length := by
  rw [RunWorkload_trace, joinedSlots_append, joinedSlots_append, joinedSlots_createEvents,
    joinedSlots_joinEvents]
  simp [joinedSlots]

/-- A worker applies exactly one affinity set: the singleton of its `eligible_core`
converted back to `size_t`. -/
theorem appliedAffinity_Workload (sizeBits : Nat) (env : WorkerEnv) (p : WorkloadParams) :
    appliedAffinity (Workload sizeBits env p) = [[intToSize sizeBits p.eligible_core]] := by
  unfold Workload SetCurrentThreadMaxPriority
  split <;> simp [appliedAffinity]

/-- With a 32-bit `size_t` every core id survives the trip through the `int` field. -/
theorem intToSize_sizeToInt_32 (c : Nat) (h : c < 2 ^ 32) :
    intToSize 32 (sizeToInt c) = c := by
  unfold intToSize sizeToInt
  have h1 : ((c : Int) % 2 ^ 32) = (c : Int) := by
    apply Int.emod_eq_of_lt <;> omega
  simp only [h1]
  split <;> omega

/-- A core id that fits its `size_t` survives the trip through the `int` field when
it is below `2^31` or `size_t` is 32 bits wide. -/
theorem affinity_roundtrip (sizeBits c : Nat) (hwf : c < 2 ^ sizeBits)
    (hc : c < 2 ^ 31 ∨ sizeBits = 32) : intToSize sizeBits (sizeToInt c) = c := by
  rcases hc with h | h
  · rw [sizeToInt_of_lt c h]
    unfold intToSize
    have h1 : ((c : Int) % 2 ^ sizeBits) = (c : Int) := by
      apply Int.emod_eq_of_lt
      · omega
      · exact_mod_cast hwf
    rw [h1]; simp
  · subst h
    exact intToSize_sizeToInt_32 c hwf

theorem failedCreations_le (env : Env) (n : Nat) :
    failedCreations env n ≤ n := by
  unfold failedCreations
  calc ((List.range n).filter (fun i => decide ((env.create i).ret ≠ 0))).length
      ≤ (List.range n).length := List.length_filter_le _ _
    _ = n := List.length_range n

/-! ## Claims that hold in amended form -/

/-- C1 as stated fails at `cores = [2147483648]`, `load_length = 1`: the one task
handed out holds the core id `-2147483648`, the value the `int` field
`eligible_core` takes when `2147483648` is assigned to it, not `2147483648`. -/
theorem C1_large_core_not_held :
    createdTasks (RunWorkload allSucceed [2147483648] 1) =
      [{ eligible_core := -2147483648, load_length := 1 }] ∧
    createdTasks (RunWorkload allSucceed [2147483648] 1) ≠
      [{ eligible_core := 2147483648, load_length := 1 }] := by
  decide

/-- C1, amended: when every entry of `cores` is below `2^31`, `RunWorkload` hands out
one task per entry of `cores`, in input order and for every outcome of the thread
calls, the `i`-th task holding exactly `(cores[i], intensity)`; the number of tasks
equals the length of `cores`. -/
theorem C1_one_task_per_core (env : Env) (cores : List Nat) (load : Int)
    (hsmall : ∀ c ∈ cores, c < 2 ^ 31) :
    createdTasks (RunWorkload env cores load) =
      cores.map (fun (c : Nat) => ({ eligible_core := (c : Int), load_length := load } :
        WorkloadParams)) ∧
    (createdTasks (RunWorkload env cores load)).length = cores.length := by
  refine ⟨?_, createdTasks_length env cores load⟩
  rw [createdTasks_RunWorkload]
  apply List.map_congr_left
  intro c hc
  rw [sizeToInt_of_lt c (hsmall c hc)]

theorem C1_one_task_per_core_witness :
    (∀ c ∈ [3, 0, 7], c < 2 ^ 31) ∧
    createdTasks (RunWorkload noThreads [3, 0, 7] 5) =
      [3, 0, 7].map (fun (c : Nat) => ({ eligible_core := (c : Int), load_length := 5 } :
        WorkloadParams)) ∧
    (createdTasks (RunWorkload noThreads [3, 0, 7] 5)).length = [3, 0, 7].length :=
  ⟨by decide, C1_one_task_per_core noThreads [3, 0, 7] 5 (by decide)⟩

/-- C5 as stated fails at `cores = [4294967296]` with a 64-bit `size_t`: the worker
created for core `4294967296` applies the single affinity set holding core `0`. -/
theorem C5_large_core_affinity :
    4294967296 < 2 ^ 64 ∧
    (createdTasks (RunWorkload allSucceed [4294967296] 1)).map
        (fun p => appliedAffinity (Workload 64 setupOk p)) = [[[0]]] ∧
    (createdTasks (RunWorkload allSucceed [4294967296] 1)).map
        (fun p => appliedAffinity (Workload 64 setupOk p)) ≠ [[[4294967296]]] := by
  decide

/-- C5, amended: in any request, for an entry `c = cores[i]` that is below `2^31`, or
any entry when `size_t` is 32 bits wide, the worker created for `c` applies one
affinity set, the singleton of `c`, and no other; the other entries of the request
are unconstrained. -/
theorem C5_affinity_is_requested_core (sizeBits : Nat) (env : Env) (wenv : WorkerEnv)
    (cores : List Nat) (load : Int) (i : Nat) (hi : i < cores.length)
    (hwf : cores[i] < 2 ^ sizeBits)
    (hc : cores[i] < 2 ^ 31 ∨ sizeBits = 32) :
    ((createdTasks (RunWorkload env cores load))[i]?).map
        (fun p => appliedAffinity (Workload sizeBits wenv p)) =
      some [[cores[i]]] := by
  rw [createdTasks_RunWorkload, List.getElem?_map, List.getElem?_eq_getElem hi]
  simp only [Option.map_some', appliedAffinity_Workload]
  rw [affinity_roundtrip sizeBits cores[i] hwf hc]

theorem C5_affinity_is_requested_core_witness :
    (0 < [5, 4294967296].length) ∧
    ((5 : Nat) < 2 ^ 64) ∧
    ((5 : Nat) < 2 ^ 31 ∨ 64 = 32) ∧
    ((createdTasks (RunWorkload allSucceed [5, 4294967296] 9))[0]?).map
        (fun p => appliedAffinity (Workload 64 setupOk p)) =
      some [[5]] :=
  ⟨by decide, by decide, by decide,
    C5_affinity_is_requested_core 64 allSucceed setupOk [5, 4294967296] 9 0
      (by decide) (by decide) (by decide)⟩

/-- C6 as stated fails at `cores = [0]` when the one `pthread_create` fails with
error `11`: no thread was created, yet `pthread_join` is called on slot `0`, so one
join is issued where `k - f = 0` are claimed. -/
theorem C6_join_after_failed_create :
    (noThreads.create 0).ret ≠ 0 ∧
    failedCreations noThreads [0].length = 1 ∧
    RunWorkload noThreads [0] 0 =
      [DispatchEvent.sync,
       DispatchEvent.pthread_create 0 { eligible_core := 0, load_length := 0 },
       DispatchEvent.pthread_join 0 0] ∧
    (joinedSlots (RunWorkload noThreads [0] 0)).length ≠
      [0].length - failedCreations noThreads [0].length := by
  decide

/-- C6, amended: for every request and every pattern of creation failures,
`RunWorkload` joins every thread it created: if the creation of worker `i` succeeded,
`pthread_join` is called on slot `i` with the handle that creation produced; so a run
with `f` failed creations out of `k` issues at least `k - f` joins. -/
theorem C6_joins_created_threads (env : Env) (cores : List Nat) (load : Int) :
    (∀ i, i < cores.length → (env.create i).ret = 0 →
      DispatchEvent.pthread_join i (env.create i).tid ∈ RunWorkload env cores load) ∧
    cores.length - failedCreations env cores.length ≤
      (joinedSlots (RunWorkload env cores load)).length := by
  constructor
  · intro i hi hr
    rw [RunWorkload_trace]
    apply List.mem_append_right
    rw [List.mem_flatMap]
    refine ⟨i, List.mem_range.mpr hi, ?_⟩
    simp [joinEvents, slotAfterCreate, CreateResult.stored, hr]
  · rw [joinedSlots_RunWorkload, List.length_range]
    exact Nat.sub_le _ _

end WorkloadGenerator
